import Mathlib

/-!
Shallow embedding of the soho-credit payment settlement engine:
vault ledger (src/unnamed/part_001 + vault queries in src/unnamed/part_010),
credit ledger and payment orchestrator (src/src/core/payment.ts,
src/src/core/agent.ts), permission checks (src/unnamed/part_013) and the
MPC signer (src/src/mpc/index.ts).  All USD amounts are modelled as
rationals (the source uses JS numbers for fixed-point USD values).
-/

deriving instance DecidableEq for Except

namespace SohoCredit

/-- Math.min on rationals, written out so that it evaluates by kernel
reduction on concrete inputs. -/
def ratMin (a b : ℚ) : ℚ := if a ≤ b then a else b

/-- Config defaults from src/unnamed/part_012 (ConfigSchema). -/
def MERCHANT_FEE_BPS : ℚ := 150

def MAX_CREDIT_LIMIT_USDC : ℚ := 100000

-- ---------------------------------------------------------------------------
-- Vault state (vault table row, src/unnamed/part_010) and vault engine
-- (src/unnamed/part_001)
-- ---------------------------------------------------------------------------

structure Vault where
  totalDepositsUsdc : ℚ
  totalLentUsdc : ℚ
  totalFeesEarnedUsdc : ℚ
  totalShares : ℚ
deriving DecidableEq

/-- `availableLiquidityUsdc` as computed in getVaultState. -/
def availableLiquidity (v : Vault) : ℚ :=
  v.totalDepositsUsdc - v.totalLentUsdc

/-- getSharePrice: totalDeposits / totalShares, 1.0 when no shares exist. -/
def getSharePrice (v : Vault) : ℚ :=
  if v.totalShares = 0 then 1 else v.totalDepositsUsdc / v.totalShares

/-- vaultQueries.updateLent: total_lent_usdc += amount. -/
def updateLent (v : Vault) (amountUsdc : ℚ) : Vault :=
  { v with totalLentUsdc := v.totalLentUsdc + amountUsdc }

/-- vaultQueries.returnLent: total_lent_usdc -= amount. -/
def returnLent (v : Vault) (amountUsdc : ℚ) : Vault :=
  { v with totalLentUsdc := v.totalLentUsdc - amountUsdc }

/-- vaultQueries.addFees: fees += f, deposits += f. -/
def addFees (v : Vault) (feeUsdc : ℚ) : Vault :=
  { v with totalFeesEarnedUsdc := v.totalFeesEarnedUsdc + feeUsdc,
           totalDepositsUsdc := v.totalDepositsUsdc + feeUsdc }

/-- vaultQueries.updateDeposit: deposits += amount, shares += sharesIssued. -/
def updateDeposit (v : Vault) (amountUsdc sharesIssued : ℚ) : Vault :=
  { v with totalDepositsUsdc := v.totalDepositsUsdc + amountUsdc,
           totalShares := v.totalShares + sharesIssued }

/-- vaultQueries.updateWithdraw: deposits -= amount, shares -= burned. -/
def updateWithdraw (v : Vault) (amountUsdc sharesBurned : ℚ) : Vault :=
  { v with totalDepositsUsdc := v.totalDepositsUsdc - amountUsdc,
           totalShares := v.totalShares - sharesBurned }

inductive VaultError where
  | insufficientLiquidity
  | insufficientShares
deriving DecidableEq

/-- reserveLiquidity (src/unnamed/part_001 lines 171-179): throws when the
requested amount exceeds available liquidity, otherwise updateLent. -/
def reserveLiquidity (v : Vault) (amountUsdc : ℚ) : Except VaultError Vault :=
  if amountUsdc > availableLiquidity v then
    .error .insufficientLiquidity
  else
    .ok (updateLent v amountUsdc)

/-- returnLiquidity (src/unnamed/part_001 lines 184-186): unconditional. -/
def returnLiquidity (v : Vault) (amountUsdc : ℚ) : Vault :=
  returnLent v amountUsdc

/-- processFeeIntoVault: no-op for fee <= 0, else addFees. -/
def processFeeIntoVault (v : Vault) (feeUsdc : ℚ) : Vault :=
  if feeUsdc ≤ 0 then v else addFees v feeUsdc

-- ---------------------------------------------------------------------------
-- Lender positions and deposit / withdrawal (src/unnamed/part_001)
-- ---------------------------------------------------------------------------

structure LenderPosition where
  depositedUsdc : ℚ
  sharesOwned : ℚ
  earnedYieldUsdc : ℚ
deriving DecidableEq

/-- processDeposit: mint amount / sharePrice shares, add a position. -/
def processDeposit (v : Vault) (amountUsdc : ℚ) : Vault × LenderPosition :=
  let sharePrice := getSharePrice v
  let sharesIssued := amountUsdc / sharePrice
  (updateDeposit v amountUsdc sharesIssued,
   { depositedUsdc := amountUsdc, sharesOwned := sharesIssued,
     earnedYieldUsdc := 0 })

/-- The burn loop inside processWithdrawal: walks the lender's positions,
burning min(pos.shares, remaining) from each until remaining <= 0.
Returns (updated positions, remaining shares, total original value). -/
def burnLoop (sharePrice : ℚ) :
    List LenderPosition → ℚ → ℚ → List LenderPosition × ℚ × ℚ
  | [], remaining, totalOriginal => ([], remaining, totalOriginal)
  | pos :: rest, remaining, totalOriginal =>
    if remaining ≤ 0 then (pos :: rest, remaining, totalOriginal)
    else
      let burnFromThis := ratMin pos.sharesOwned remaining
      let originalValue := burnFromThis / pos.sharesOwned * pos.depositedUsdc
      let yieldForThis := burnFromThis * sharePrice - originalValue
      let pos1 := { pos with
        sharesOwned := pos.sharesOwned - burnFromThis,
        earnedYieldUsdc := pos.earnedYieldUsdc + yieldForThis }
      let r := burnLoop sharePrice rest (remaining - burnFromThis)
                 (totalOriginal + originalValue)
      (pos1 :: r.1, r.2.1, r.2.2)

/-- processWithdrawal (src/unnamed/part_001 lines 98-148).  The positions
argument is the lender's position list in query order; an error inside the
db transaction rolls every update back, so errors leave state unchanged. -/
def processWithdrawal (v : Vault) (positions : List LenderPosition)
    (sharesToBurn : ℚ) :
    Except VaultError (Vault × List LenderPosition × ℚ × ℚ) :=
  let sharePrice := getSharePrice v
  let amountUsdc := sharesToBurn * sharePrice
  if amountUsdc > availableLiquidity v then
    .error .insufficientLiquidity
  else
    let r := burnLoop sharePrice positions sharesToBurn 0
    if r.2.1 > 1 / 1000 then
      .error .insufficientShares
    else
      .ok (updateWithdraw v amountUsdc sharesToBurn, r.1, amountUsdc,
           amountUsdc - r.2.2)

-- ---------------------------------------------------------------------------
-- Agents, merchants, permission checks
-- ---------------------------------------------------------------------------

/-- The columns of an agent row that the settlement engine reads/writes. -/
structure Agent where
  id : String
  creditLimitUsdc : ℚ
  usedCreditUsdc : ℚ
  status : String
  kyaStatus : String
  riskScore : ℚ
deriving DecidableEq

structure Merchant where
  id : String
  feeBps : ℚ
  status : String
  sanctionsClean : Bool
deriving DecidableEq

/-- The failure reasons pushed by runPermissionChecks, as tags (the source
stores interpolated strings; the formatting is presentation only). -/
inductive FailureReason where
  | insufficientCredit
  | recipientSanctioned
  | merchantNotFound
  | merchantInactive
  | merchantSanctions
  | recipientAgentNotFoundOrInactive
  | kyaNotApproved
  | agentNotActive
  | riskScoreExceeded
deriving DecidableEq

structure PermissionCheckResult where
  creditCheck : Bool
  sanctionsCheck : Bool
  merchantCheck : Bool
  kyaCheck : Bool
  riskCheck : Bool
  allPassed : Bool
  failureReasons : List FailureReason
deriving DecidableEq

-- ---------------------------------------------------------------------------
-- Transactions and the persisted world (src/unnamed/part_010 tables)
-- ---------------------------------------------------------------------------

structure Txn where
  id : String
  agentId : String
  merchantId : Option String
  recipientAgentId : Option String
  amountUsdc : ℚ
  feeUsdc : ℚ
  netAmountUsdc : ℚ
  status : String
  type : String
  recipientAddress : String
  permissionChecks : PermissionCheckResult
  idempotencyKey : String
  txHash : Option String
deriving DecidableEq

structure World where
  agents : List Agent
  merchants : List Merchant
  txns : List Txn
  vault : Vault
deriving DecidableEq

/-- agentQueries.getById. -/
def findAgent (w : World) (agentId : String) : Option Agent :=
  w.agents.find? fun a => a.id == agentId

/-- merchantQueries.getById. -/
def findMerchant (w : World) (merchantId : String) : Option Merchant :=
  w.merchants.find? fun m => m.id == merchantId

/-- txQueries.getByIdempotencyKey. -/
def txGetByIdemKey (w : World) (key : String) : Option Txn :=
  w.txns.find? fun t => t.idempotencyKey == key

/-- txQueries.create (new row; modelled at the head of the list). -/
def txCreate (w : World) (t : Txn) : World :=
  { w with txns := t :: w.txns }

/-- txQueries.updateStatus. -/
def txUpdateStatus (w : World) (txId status : String) : World :=
  { w with txns := w.txns.map fun t =>
      if t.id == txId then { t with status := status } else t }

/-- txQueries.updateTxHash. -/
def txUpdateHash (w : World) (txId txHash : String) : World :=
  { w with txns := w.txns.map fun t =>
      if t.id == txId then { t with txHash := some txHash } else t }

/-- agentQueries.updateCredit: used_credit_usdc = newUsed WHERE id = agentId. -/
def updateAgentCredit (w : World) (agentId : String) (newUsed : ℚ) : World :=
  { w with agents := w.agents.map fun a =>
      if a.id == agentId then { a with usedCreditUsdc := newUsed } else a }

/-- agentQueries.updateStatus. -/
def updateAgentStatus (w : World) (agentId status : String) : World :=
  { w with agents := w.agents.map fun a =>
      if a.id == agentId then { a with status := status } else a }

/-- UPDATE agents SET credit_limit_usdc = ? WHERE id = ? (core/agent.ts). -/
def updateAgentLimit (w : World) (agentId : String) (newLimit : ℚ) : World :=
  { w with agents := w.agents.map fun a =>
      if a.id == agentId then { a with creditLimitUsdc := newLimit } else a }

-- ---------------------------------------------------------------------------
-- runPermissionChecks (src/unnamed/part_013 lines 823-915)
-- ---------------------------------------------------------------------------

/-- The five gates and the aggregate, in source order.  The sanctions
screening of the recipient address is an external provider; its outcome
enters as the `recipientSanctioned` argument. -/
def runPermissionChecks (w : World) (agent : Agent)
    (recipientSanctioned : Bool) (amountUsdc : ℚ)
    (merchantId recipientAgentId : Option String) : PermissionCheckResult :=
  let availableCredit := agent.creditLimitUsdc - agent.usedCreditUsdc
  let creditCheck : Bool := decide (amountUsdc ≤ availableCredit)
  let sanctionsCheck : Bool := !recipientSanctioned
  let merchantResult : Bool × List FailureReason :=
    match merchantId with
    | some mid =>
      match findMerchant w mid with
      | some m =>
        if m.status == "active" && m.sanctionsClean then (true, [])
        else if m.status != "active" then (false, [.merchantInactive])
        else (false, [.merchantSanctions])
      | none => (false, [.merchantNotFound])
    | none =>
      match recipientAgentId with
      | some rid =>
        match findAgent w rid with
        | some ra =>
          if ra.status == "active" then (true, [])
          else (false, [.recipientAgentNotFoundOrInactive])
        | none => (false, [.recipientAgentNotFoundOrInactive])
      | none => (true, [])
  let merchantCheck := merchantResult.1
  let kyaCheck : Bool := agent.kyaStatus == "approved"
  let riskCheck : Bool := agent.status == "active" && decide (agent.riskScore ≤ 70)
  let reasons : List FailureReason :=
    (if creditCheck then [] else [.insufficientCredit]) ++
    (if sanctionsCheck then [] else [.recipientSanctioned]) ++
    merchantResult.2 ++
    (if kyaCheck then [] else [.kyaNotApproved]) ++
    (if riskCheck then []
     else if agent.status != "active" then [.agentNotActive]
     else [.riskScoreExceeded])
  { creditCheck := creditCheck, sanctionsCheck := sanctionsCheck,
    merchantCheck := merchantCheck, kyaCheck := kyaCheck,
    riskCheck := riskCheck,
    allPassed := creditCheck && sanctionsCheck && merchantCheck &&
                 kyaCheck && riskCheck,
    failureReasons := reasons }

-- ---------------------------------------------------------------------------
-- processPayment (src/src/core/payment.ts lines 54-262)
-- ---------------------------------------------------------------------------

structure PaymentRequest where
  agentId : String
  recipientAddress : String
  amountUsdc : ℚ
  merchantId : Option String
  recipientAgentId : Option String
  agentPartialSignature : Option String
  idempotencyKey : String
deriving DecidableEq

structure PaymentResult where
  transactionId : String
  status : String
  permissionChecks : PermissionCheckResult
  feeUsdc : ℚ
  netAmountUsdc : ℚ
  mpcSignatureId : Option String
  txHash : Option String
  awaitingAgentSignature : Option Bool
deriving DecidableEq

inductive PaymentError where
  | agentNotFound
  | vaultLiquidity
  | signBroadcastError
  | referenceErrorSignResult
deriving DecidableEq

/-- What the external decrypt/sign/broadcast steps inside the try block do:
the decryption or chain call throws, or the chain provider returns a
transfer result with a hash and a confirmation flag (simulation mode is
the confirmed case with a locally computed hash). -/
inductive ExtOutcome where
  | signFails
  | broadcastFails
  | broadcastResult (txHash : String) (confirmed : Bool)
deriving DecidableEq

/-- Step 3 of processPayment: the merchant-specific fee rate when the
named merchant exists, the config default otherwise. -/
def feeBpsOf (w : World) (req : PaymentRequest) : ℚ :=
  match req.merchantId with
  | some mid =>
    match findMerchant w mid with
    | some m => m.feeBps
    | none => MERCHANT_FEE_BPS
  | none => MERCHANT_FEE_BPS

/-- The catch block at payment.ts lines 251-261: mark the transaction
failed, return the reserved liquidity, restore the agent's used credit to
the snapshot loaded at entry, and rethrow. -/
def paymentRollback (w : World) (txId : String) (req : PaymentRequest)
    (agent : Agent) (netAmountUsdc : ℚ) (e : PaymentError) :
    Except PaymentError PaymentResult × World :=
  let w1 := txUpdateStatus w txId "failed"
  let w2 := { w1 with vault := returnLiquidity w1.vault netAmountUsdc }
  (.error e, updateAgentCredit w2 req.agentId agent.usedCreditUsdc)

/-- The full payment flow.  `txId` stands for the fresh uuid,
`recipientSanctioned` for the external sanctions screen of the recipient
address, and `ext` for the external signing/broadcast outcome.  The
success path faithfully includes the source slip at payment.ts line 248:
the returned record reads the undefined variable `signResult`, raising a
ReferenceError that the surrounding catch treats as a payment failure. -/
def processPayment (w : World) (req : PaymentRequest)
    (recipientSanctioned : Bool) (ext : ExtOutcome) (txId : String) :
    Except PaymentError PaymentResult × World :=
  -- 1. idempotency check
  match txGetByIdemKey w req.idempotencyKey with
  | some existing =>
    (.ok { transactionId := existing.id, status := existing.status,
           permissionChecks := existing.permissionChecks,
           feeUsdc := existing.feeUsdc,
           netAmountUsdc := existing.netAmountUsdc,
           mpcSignatureId := none, txHash := existing.txHash,
           awaitingAgentSignature := none }, w)
  | none =>
  -- 2. load agent
  match findAgent w req.agentId with
  | none => (.error .agentNotFound, w)
  | some agent =>
    -- 3. calculate fees (unknown merchant falls back to the default bps)
    let feeUsdc := req.amountUsdc * feeBpsOf w req / 10000
    let netAmountUsdc := req.amountUsdc - feeUsdc
    -- 4. run permission checks
    let permChecks := runPermissionChecks w agent recipientSanctioned
      req.amountUsdc req.merchantId req.recipientAgentId
    -- 5. create transaction record
    let t : Txn :=
      { id := txId, agentId := req.agentId, merchantId := req.merchantId,
        recipientAgentId := req.recipientAgentId,
        amountUsdc := req.amountUsdc, feeUsdc := feeUsdc,
        netAmountUsdc := netAmountUsdc,
        status := if permChecks.allPassed then "approved" else "rejected",
        type := if req.recipientAgentId.isSome then "agent_to_agent"
                else "agent_to_merchant",
        recipientAddress := req.recipientAddress,
        permissionChecks := permChecks,
        idempotencyKey := req.idempotencyKey, txHash := none }
    let w1 := txCreate w t
    -- 6. if checks failed, return rejection
    if permChecks.allPassed = false then
      (.ok { transactionId := txId, status := "rejected",
             permissionChecks := permChecks, feeUsdc := feeUsdc,
             netAmountUsdc := netAmountUsdc, mpcSignatureId := none,
             txHash := none, awaitingAgentSignature := none }, w1)
    else
      -- 7. reserve liquidity from vault
      match reserveLiquidity w1.vault netAmountUsdc with
      | .error _ =>
        (.error .vaultLiquidity, txUpdateStatus w1 txId "failed")
      | .ok v2 =>
        let w2 := { w1 with vault := v2 }
        -- 8. update the agent's used credit (gross amount)
        let w3 := updateAgentCredit w2 req.agentId
          (agent.usedCreditUsdc + req.amountUsdc)
        -- 9. MPC signing
        let w4 := txUpdateStatus w3 txId "signing"
        match req.agentPartialSignature with
        | none =>
          (.ok { transactionId := txId, status := "signing",
                 permissionChecks := permChecks, feeUsdc := feeUsdc,
                 netAmountUsdc := netAmountUsdc, mpcSignatureId := none,
                 txHash := none, awaitingAgentSignature := some true },
           txUpdateStatus w4 txId "signing")
        | some _ =>
          let w5 := txUpdateStatus w4 txId "signing"
          match ext with
          | .signFails =>
            paymentRollback w5 txId req agent netAmountUsdc
              .signBroadcastError
          | .broadcastFails =>
            paymentRollback (txUpdateStatus w5 txId "broadcasting") txId req
              agent netAmountUsdc .signBroadcastError
          | .broadcastResult h confirmed =>
            let w6 := txUpdateStatus w5 txId "broadcasting"
            if confirmed = false then
              paymentRollback w6 txId req agent netAmountUsdc
                .signBroadcastError
            else
              -- 10/11. settle: hash, confirmed status, fee into vault
              let w7 := txUpdateStatus (txUpdateHash w6 txId h) txId
                "confirmed"
              let w8 := { w7 with
                vault := processFeeIntoVault w7.vault feeUsdc }
              -- building the success response dereferences the undefined
              -- variable signResult (payment.ts line 248): ReferenceError,
              -- handled by the same catch block
              paymentRollback w8 txId req agent netAmountUsdc
                .referenceErrorSignResult

-- ---------------------------------------------------------------------------
-- processRepayment (src/src/core/payment.ts lines 279-340)
-- ---------------------------------------------------------------------------

inductive RepayError where
  | agentNotFound
  | noOutstandingBalance
deriving DecidableEq

structure RepaymentResult where
  amountUsdc : ℚ
  newBalance : ℚ
  status : String
deriving DecidableEq

def processRepayment (w : World) (agentId : String) (amountUsdc : ℚ) :
    Except RepayError RepaymentResult × World :=
  match findAgent w agentId with
  | none => (.error .agentNotFound, w)
  | some agent =>
    let actualRepayment := ratMin amountUsdc agent.usedCreditUsdc
    if actualRepayment ≤ 0 then
      (.error .noOutstandingBalance, w)
    else
      let newUsedCredit := agent.usedCreditUsdc - actualRepayment
      -- the db.transaction block: credit update, liquidity return and
      -- the delinquency restore execute as one atomic unit
      let w1 := updateAgentCredit w agentId newUsedCredit
      let w2 := { w1 with vault := returnLiquidity w1.vault actualRepayment }
      let w3 := if agent.status == "delinquent" && newUsedCredit == 0 then
          updateAgentStatus w2 agentId "active"
        else w2
      (.ok { amountUsdc := actualRepayment, newBalance := newUsedCredit,
             status := "confirmed" }, w3)

-- ---------------------------------------------------------------------------
-- adjustCreditLimit (src/src/core/agent.ts lines 187-204)
-- ---------------------------------------------------------------------------

inductive AdjustLimitError where
  | agentNotFound
  | belowUsage
  | aboveMax
deriving DecidableEq

def adjustCreditLimit (w : World) (agentId : String) (newLimitUsdc : ℚ) :
    Except AdjustLimitError Unit × World :=
  match findAgent w agentId with
  | none => (.error .agentNotFound, w)
  | some agent =>
    if newLimitUsdc < agent.usedCreditUsdc then
      (.error .belowUsage, w)
    else if newLimitUsdc > MAX_CREDIT_LIMIT_USDC then
      (.error .aboveMax, w)
    else
      (.ok (), updateAgentLimit w agentId newLimitUsdc)

-- ---------------------------------------------------------------------------
-- signWithMPC (src/src/mpc/index.ts lines 102-142)
-- ---------------------------------------------------------------------------

/-- The secp256k1 curve order n. -/
def secpN : ℕ :=
  0xFFFFFFFFFFFFFFFFFFFFFFFFFFFFFFFEBAAEDCE6AF48A03BBFD25E8CD0364141

inductive SignOutcome where
  | decryptionError
  | signingError
  | invalidShardError
  | ok (fullKey : ℕ)
deriving DecidableEq

/-- signWithMPC: decrypt the server shard (the `decryptOk` flag stands for
the external AES decryption succeeding), reconstruct
fullKey = (serverShard + agentShard) mod n, and sign via the secp256k1
library, which rejects only an invalid reconstructed private key (zero
after the reduction).  The source contains no range validation of the
individual shards and never raises an InvalidShardError. -/
def signWithMPC (decryptOk : Bool) (serverShard agentShard : ℕ) :
    SignOutcome :=
  if decryptOk then
    let fullKey := (serverShard + agentShard) % secpN
    if fullKey = 0 then .signingError else .ok fullKey
  else .decryptionError

-- ---------------------------------------------------------------------------
-- Invariants
-- ---------------------------------------------------------------------------

def AgentInv (a : Agent) : Prop :=
  0 ≤ a.usedCreditUsdc ∧ a.usedCreditUsdc ≤ a.creditLimitUsdc

def CreditInv (w : World) : Prop :=
  ∀ a ∈ w.agents, AgentInv a

def VaultInv (v : Vault) : Prop :=
  0 ≤ v.totalLentUsdc ∧ v.totalLentUsdc ≤ v.totalDepositsUsdc

/-- Agent ids are unique (agents.id is the PRIMARY KEY of the table). -/
def UniqueAgentIds (w : World) : Prop :=
  (w.agents.map Agent.id).Nodup

-- ---------------------------------------------------------------------------
-- Concrete states used by witnesses and counterexamples
-- ---------------------------------------------------------------------------

/-- Scenario A agent: creditLimit 1000, usedCredit 0, fully approved. -/
def agentA : Agent :=
  { id := "agent-1", creditLimitUsdc := 1000, usedCreditUsdc := 0,
    status := "active", kyaStatus := "approved", riskScore := 10 }

/-- Scenario A merchant: feeBps 150, active, sanctions clean. -/
def merchantA : Merchant :=
  { id := "m-1", feeBps := 150, status := "active", sanctionsClean := true }

def vaultA : Vault :=
  { totalDepositsUsdc := 1000, totalLentUsdc := 0,
    totalFeesEarnedUsdc := 0, totalShares := 1000 }

def worldA : World :=
  { agents := [agentA], merchants := [merchantA], txns := [], vault := vaultA }

/-- Scenario A request: amount 100 to merchant m-1, shard supplied. -/
def reqA : PaymentRequest :=
  { agentId := "agent-1", recipientAddress := "0xmerchant",
    amountUsdc := 100, merchantId := some "m-1", recipientAgentId := none,
    agentPartialSignature := some "shard", idempotencyKey := "key-1" }

/-- Same request without the agent shard (payment left awaiting). -/
def reqANoShard : PaymentRequest :=
  { reqA with agentPartialSignature := none }

/-- The state a confirmed Scenario A payment is meant to leave behind:
lent = netAmount 98.5, deposits grown by the injected fee 1.5, the agent
owing the gross 100. -/
def vaultAfterPay : Vault :=
  { totalDepositsUsdc := 2003 / 2, totalLentUsdc := 197 / 2,
    totalFeesEarnedUsdc := 3 / 2, totalShares := 1000 }

def agentAfterPay : Agent := { agentA with usedCreditUsdc := 100 }

def worldAfterPay : World :=
  { agents := [agentAfterPay], merchants := [merchantA], txns := [],
    vault := vaultAfterPay }

/-- The verdict runPermissionChecks computes for Scenario A: all five
gates pass with no failure reasons. -/
def pcA : PermissionCheckResult :=
  { creditCheck := true, sanctionsCheck := true, merchantCheck := true,
    kyaCheck := true, riskCheck := true, allPassed := true,
    failureReasons := [] }

/-- Scenario A world with no registered merchants, so reqA names an
unknown merchantId. -/
def world9 : World :=
  { worldA with merchants := [] }

/-- The post-payment state with the debtor marked delinquent. -/
def agentDelinquent : Agent :=
  { agentA with usedCreditUsdc := 100, status := "delinquent" }

def worldDelinquent : World :=
  { agents := [agentDelinquent], merchants := [], txns := [],
    vault := vaultAfterPay }

example : (processPayment worldA reqA false (.broadcastResult "0xabc" true)
    "tx-1").1 = .error .referenceErrorSignResult := by
  norm_num [processPayment, worldA, reqA, agentA, merchantA, vaultA,
    txGetByIdemKey, findAgent, findMerchant, feeBpsOf, runPermissionChecks,
    MERCHANT_FEE_BPS, txCreate, reserveLiquidity, availableLiquidity,
    updateLent, updateAgentCredit, txUpdateStatus, txUpdateHash,
    paymentRollback, returnLiquidity, returnLent, processFeeIntoVault,
    addFees]

example : ((processPayment worldA reqANoShard false .signFails
    "tx-1").2.txns.map Txn.status) = ["signing"] := by
  norm_num [processPayment, worldA, reqA, reqANoShard, agentA, merchantA,
    vaultA, txGetByIdemKey, findAgent, findMerchant, feeBpsOf,
    runPermissionChecks,
    MERCHANT_FEE_BPS, txCreate, reserveLiquidity, availableLiquidity,
    updateLent, updateAgentCredit, txUpdateStatus]

example : (processRepayment worldAfterPay "agent-1" 100).2.vault.totalLentUsdc
    = -(3 / 2) := by
  norm_num [processRepayment, worldAfterPay, agentAfterPay, agentA,
    vaultAfterPay, findAgent, ratMin, updateAgentCredit, updateAgentStatus,
    returnLiquidity, returnLent]

-- ---------------------------------------------------------------------------
-- Supporting lemmas
-- ---------------------------------------------------------------------------

theorem ratMin_eq_min (a b : ℚ) : ratMin a b = min a b := by
  simp [ratMin, min_def]

theorem findAgent_mem {w : World} {agentId : String} {a : Agent}
    (h : findAgent w agentId = some a) : a ∈ w.agents ∧ a.id = agentId := by
  refine ⟨List.mem_of_find?_eq_some h, ?_⟩
  have hp := List.find?_some h
  simpa using hp

/-- With unique agent ids, any member carrying the id found by findAgent
is the found agent itself. -/
theorem mem_id_eq_found {w : World} {agentId : String} {ag a : Agent}
    (hu : UniqueAgentIds w) (hf : findAgent w agentId = some ag)
    (ha : a ∈ w.agents) (hid : a.id = agentId) : a = ag := by
  obtain ⟨hmem, hagid⟩ := findAgent_mem hf
  exact List.inj_on_of_nodup_map hu ha hmem (by rw [hid, hagid])

theorem creditInv_of_agents_eq {w w2 : World} (h : w2.agents = w.agents)
    (hinv : CreditInv w) : CreditInv w2 := by
  intro a ha
  exact hinv a (h ▸ ha)

/-- updateAgentCredit keeps the invariant when the written value is within
bounds for every agent row carrying the id. -/
theorem creditInv_updateAgentCredit {w : World} {agentId : String} {v : ℚ}
    (hinv : CreditInv w)
    (hv : ∀ a ∈ w.agents, a.id = agentId → 0 ≤ v ∧ v ≤ a.creditLimitUsdc) :
    CreditInv (updateAgentCredit w agentId v) := by
  intro a ha
  simp only [updateAgentCredit, List.mem_map] at ha
  obtain ⟨b, hb, rfl⟩ := ha
  by_cases hid : b.id == agentId
  · rw [if_pos hid]
    have hbid : b.id = agentId := by simpa using hid
    exact ⟨(hv b hb hbid).1, (hv b hb hbid).2⟩
  · rw [if_neg hid]
    exact hinv b hb

theorem creditInv_updateAgentStatus {w : World} {agentId st : String}
    (hinv : CreditInv w) : CreditInv (updateAgentStatus w agentId st) := by
  intro a ha
  simp only [updateAgentStatus, List.mem_map] at ha
  obtain ⟨b, hb, rfl⟩ := ha
  by_cases hid : b.id == agentId
  · rw [if_pos hid]; exact hinv b hb
  · rw [if_neg hid]; exact hinv b hb

theorem creditInv_updateAgentLimit {w : World} {agentId : String} {v : ℚ}
    (hinv : CreditInv w)
    (hv : ∀ a ∈ w.agents, a.id = agentId → a.usedCreditUsdc ≤ v) :
    CreditInv (updateAgentLimit w agentId v) := by
  intro a ha
  simp only [updateAgentLimit, List.mem_map] at ha
  obtain ⟨b, hb, rfl⟩ := ha
  by_cases hid : b.id == agentId
  · rw [if_pos hid]
    have hbid : b.id = agentId := by simpa using hid
    exact ⟨(hinv b hb).1, hv b hb hbid⟩
  · rw [if_neg hid]; exact hinv b hb

/-- Debiting and then restoring the snapshot leaves the agent list
unchanged, provided every row carrying the id held the snapshot value. -/
theorem agents_update_restore (l : List Agent) (agentId : String)
    (v snapshot : ℚ)
    (hs : ∀ a ∈ l, a.id = agentId → a.usedCreditUsdc = snapshot) :
    ((l.map fun a => if a.id == agentId then
        { a with usedCreditUsdc := v } else a).map fun a =>
        if a.id == agentId then
          { a with usedCreditUsdc := snapshot } else a) = l := by
  rw [List.map_map]
  have h : ∀ a ∈ l,
      ((fun a => if a.id == agentId then
          { a with usedCreditUsdc := snapshot } else a) ∘ fun a =>
          if a.id == agentId then { a with usedCreditUsdc := v } else a) a
        = id a := by
    intro a ha
    by_cases hid : a.id == agentId
    · simp only [Function.comp_apply, if_pos hid, id]
      have : a.usedCreditUsdc = snapshot := hs a ha (by simpa using hid)
      rw [← this]
    · simp only [Function.comp_apply, if_neg hid, id]
  rw [List.map_congr_left h, List.map_id]

/-- find? commutes with a guarded id-preserving rewrite of the rows. -/
theorem find_map_update (l : List Agent) (agentId : String) (ag : Agent)
    (f : Agent → Agent) (hid : ∀ a, (f a).id = a.id)
    (hf : l.find? (fun a => a.id == agentId) = some ag) :
    (l.map fun a => if a.id == agentId then f a else a).find?
      (fun a => a.id == agentId) = some (f ag) := by
  induction l with
  | nil => simp at hf
  | cons x xs ih =>
    by_cases hx : (x.id == agentId) = true
    · simp only [List.find?, hx] at hf
      injection hf with hf
      subst hf
      have hfx : ((f x).id == agentId) = true := by simpa [hid] using hx
      simp only [List.map_cons, if_pos hx, List.find?, hfx]
    · have hx2 : (x.id == agentId) = false := by
        simpa using hx
      simp only [List.find?, hx2] at hf
      simp only [List.map_cons, List.find?, hx2, Bool.false_eq_true,
        if_false]
      exact ih hf


-- ---------------------------------------------------------------------------
-- C10: reserveLiquidity error condition and update
-- ---------------------------------------------------------------------------

/-- C10: reserveLiquidity(amount) throws the insufficient-liquidity error
exactly when amount > totalDeposits − totalLent; otherwise it adds amount
to totalLent and changes no other vault field.  The sign of the amount is
never validated: any amount at most the available liquidity succeeds,
including zero and negative amounts, and a negative amount strictly
decreases totalLent. -/
theorem c10_reserveLiquidity_spec (v : Vault) (a : ℚ) :
    ((∃ e, reserveLiquidity v a = .error e) ↔ a > availableLiquidity v) ∧
    (a ≤ availableLiquidity v →
      reserveLiquidity v a =
        .ok { v with totalLentUsdc := v.totalLentUsdc + a }) ∧
    (a < 0 → a ≤ availableLiquidity v →
      ∃ v2, reserveLiquidity v a = .ok v2 ∧
        v2.totalLentUsdc < v.totalLentUsdc ∧
        v2.totalDepositsUsdc = v.totalDepositsUsdc ∧
        v2.totalFeesEarnedUsdc = v.totalFeesEarnedUsdc ∧
        v2.totalShares = v.totalShares) := by
  refine ⟨⟨fun h => ?_, fun h => ⟨.insufficientLiquidity, ?_⟩⟩, fun h => ?_,
    fun hneg h => ?_⟩
  · by_contra hgt
    push_neg at hgt
    obtain ⟨e, he⟩ := h
    rw [reserveLiquidity, if_neg (by exact not_lt.mpr hgt)] at he
    exact Except.noConfusion he
  · rw [reserveLiquidity, if_pos h]
  · rw [reserveLiquidity, if_neg (not_lt.mpr h)]
    rfl
  · refine ⟨updateLent v a, ?_, ?_, rfl, rfl, rfl⟩
    · rw [reserveLiquidity, if_neg (not_lt.mpr h)]
    · simpa [updateLent] using hneg

/-- Witness for C10 at vault (100, 20, 0, 100) with the negative amount
−5, which is accepted and decreases totalLent. -/
theorem c10_reserveLiquidity_spec_witness :
    (-5 : ℚ) < 0 ∧
    (-5 : ℚ) ≤ availableLiquidity ⟨100, 20, 0, 100⟩ ∧
    ∃ v2, reserveLiquidity ⟨100, 20, 0, 100⟩ (-5) = .ok v2 ∧
      v2.totalLentUsdc < (20 : ℚ) ∧
      v2.totalDepositsUsdc = (100 : ℚ) ∧
      v2.totalFeesEarnedUsdc = (0 : ℚ) ∧
      v2.totalShares = (100 : ℚ) :=
  ⟨by norm_num, by norm_num [availableLiquidity],
   (c10_reserveLiquidity_spec ⟨100, 20, 0, 100⟩ (-5)).2.2 (by norm_num)
     (by norm_num [availableLiquidity])⟩

-- ---------------------------------------------------------------------------
-- C8: signWithMPC performs no shard range validation
-- ---------------------------------------------------------------------------

/-- C8 counterexample: the claim says Sign validates both shards into
[1, n−1] and fails with InvalidShardError when either is out of range,
before reconstructing the key.  A server shard of 0 is out of range, yet
signWithMPC proceeds to reconstruct (0 + 5) mod n = 5 and signs. -/
theorem c8_counterexample :
    ¬ (1 ≤ (0 : ℕ)) ∧ signWithMPC true 0 5 = SignOutcome.ok 5 := by
  constructor
  · decide
  · rw [signWithMPC]
    norm_num [secpN]

/-- C8 amended: Sign decrypts the server shard (DecryptionError when that
fails) and reconstructs k = (serverShard + agentShard) mod n directly,
with no range validation of either shard: no input ever produces
InvalidShardError, and the underlying library rejects only an invalid
reconstructed key (zero after the reduction). -/
theorem c8_sign_no_shard_validation (dk : Bool) (s a : ℕ) :
    signWithMPC dk s a ≠ SignOutcome.invalidShardError ∧
    signWithMPC false s a = SignOutcome.decryptionError ∧
    signWithMPC true s a =
      (if (s + a) % secpN = 0 then SignOutcome.signingError
       else SignOutcome.ok ((s + a) % secpN)) := by
  refine ⟨?_, rfl, rfl⟩
  rcases dk with _ | _
  · rw [signWithMPC]
    simp
  · rw [signWithMPC]
    simp only [if_true]
    split <;> simp


-- ---------------------------------------------------------------------------
-- C7: deposit / fee-injection / withdrawal yield law
-- ---------------------------------------------------------------------------

/-- C7: from an empty vault, Deposit(D) at price 1.0 issues exactly D
shares; after InjectFee(F) the share price is (D+F)/D; withdrawing all D
shares pays exactly D+F with yield F realised into the position; with
F = 0 the round trip returns exactly D (the last conjunct at F = 0). -/
theorem c7_yield_law (D F : ℚ) (hD : 0 < D) (hF : 0 ≤ F) :
    processDeposit ⟨0, 0, 0, 0⟩ D =
      (⟨D, 0, 0, D⟩, ⟨D, D, 0⟩) ∧
    processFeeIntoVault ⟨D, 0, 0, D⟩ F = ⟨D + F, 0, F, D⟩ ∧
    getSharePrice ⟨D + F, 0, F, D⟩ = (D + F) / D ∧
    processWithdrawal ⟨D + F, 0, F, D⟩ [⟨D, D, 0⟩] D =
      .ok (⟨0, 0, F, 0⟩, [⟨D, 0, F⟩], D + F, F) := by
  have hD0 : D ≠ 0 := ne_of_gt hD
  have hprice : getSharePrice ⟨D + F, 0, F, D⟩ = (D + F) / D := by
    rw [getSharePrice, if_neg hD0]
  refine ⟨?_, ?_, hprice, ?_⟩
  · rw [processDeposit, getSharePrice]
    norm_num [updateDeposit]
  · rcases eq_or_lt_of_le hF with hF0 | hFpos
    · rw [processFeeIntoVault, if_pos (by rw [← hF0])]
      rw [← hF0]
      norm_num
    · rw [processFeeIntoVault, if_neg (by exact not_le.mpr hFpos)]
      simp [addFees]
  · have hamt : D * ((D + F) / D) = D + F := by
      field_simp
    rw [processWithdrawal, hprice]
    simp only [hamt]
    rw [if_neg (by rw [availableLiquidity]; norm_num)]
    have hburn : burnLoop ((D + F) / D) [⟨D, D, 0⟩] D 0 =
        ([⟨D, 0, F⟩], 0, D) := by
      rw [burnLoop]
      rw [if_neg (not_le.mpr hD)]
      have hmin : ratMin (⟨D, D, 0⟩ : LenderPosition).sharesOwned D = D := by
        rw [ratMin, if_pos le_rfl]
      simp only [hmin, burnLoop]
      have horig : D / (⟨D, D, 0⟩ : LenderPosition).sharesOwned *
          (⟨D, D, 0⟩ : LenderPosition).depositedUsdc = D := by
        show D / D * D = D
        rw [div_self hD0, one_mul]
      simp only [horig, hamt, sub_self, zero_add, Prod.mk.injEq,
        List.cons.injEq, LenderPosition.mk.injEq]
      simp only [true_and, and_true]
      ring
    rw [hburn]
    norm_num [updateWithdraw]

/-- C7 witness at D = 50000, F = 500 (Scenario B of the spec). -/
theorem c7_yield_law_witness :
    processDeposit ⟨0, 0, 0, 0⟩ 50000 =
      (⟨50000, 0, 0, 50000⟩, ⟨50000, 50000, 0⟩) ∧
    processFeeIntoVault ⟨50000, 0, 0, 50000⟩ 500 =
      ⟨50000 + 500, 0, 500, 50000⟩ ∧
    getSharePrice ⟨50000 + 500, 0, 500, 50000⟩ = (50000 + 500) / 50000 ∧
    processWithdrawal ⟨50000 + 500, 0, 500, 50000⟩ [⟨50000, 50000, 0⟩]
      50000 = .ok (⟨0, 0, 500, 0⟩, [⟨50000, 0, 500⟩], 50000 + 500, 500) :=
  c7_yield_law 50000 500 (by norm_num) (by norm_num)




theorem findAgent_updateAgentCredit {w : World} {agentId : String}
    {ag : Agent} (v : ℚ) (hf : findAgent w agentId = some ag) :
    findAgent (updateAgentCredit w agentId v) agentId =
      some { ag with usedCreditUsdc := v } :=
  find_map_update w.agents agentId ag _ (fun _ => rfl) hf

theorem findAgent_updateAgentStatus {w : World} {agentId : String}
    {ag : Agent} (st : String) (hf : findAgent w agentId = some ag) :
    findAgent (updateAgentStatus w agentId st) agentId =
      some { ag with status := st } :=
  find_map_update w.agents agentId ag _ (fun _ => rfl) hf

-- ---------------------------------------------------------------------------
-- C6: repayment semantics
-- ---------------------------------------------------------------------------

/-- C6: repayment of a positive amount (RepaymentRequestSchema validates
amountUsdc > 0) repays actualRepaid = min(amount, usedCredit); it fails
with the no-outstanding-balance error when usedCredit = 0; on success it
decrements usedCredit by actualRepaid and returns the same actualRepaid
of liquidity to the vault in the one atomic transaction, and a delinquent
agent whose balance reaches 0 is restored to active status. -/
theorem c6_repayment_spec (w : World) (agentId : String) (amount : ℚ)
    (agent : Agent) (hfind : findAgent w agentId = some agent)
    (hamt : 0 < amount) :
    (agent.usedCreditUsdc = 0 →
      processRepayment w agentId amount =
        (.error .noOutstandingBalance, w)) ∧
    (0 < agent.usedCreditUsdc →
      (processRepayment w agentId amount).1 =
        .ok { amountUsdc := min amount agent.usedCreditUsdc,
              newBalance :=
                agent.usedCreditUsdc - min amount agent.usedCreditUsdc,
              status := "confirmed" } ∧
      (processRepayment w agentId amount).2.vault =
        returnLiquidity w.vault (min amount agent.usedCreditUsdc) ∧
      findAgent (processRepayment w agentId amount).2 agentId =
        some { agent with
          usedCreditUsdc :=
            agent.usedCreditUsdc - min amount agent.usedCreditUsdc,
          status :=
            if (agent.status == "delinquent" &&
                (agent.usedCreditUsdc - min amount agent.usedCreditUsdc
                  == 0)) = true then "active" else agent.status } ∧
      (processRepayment w agentId amount).2.txns = w.txns ∧
      (processRepayment w agentId amount).2.merchants = w.merchants) := by
  have hmin := ratMin_eq_min amount agent.usedCreditUsdc
  constructor
  · intro h0
    have hact : ratMin amount agent.usedCreditUsdc = 0 := by
      rw [ratMin, h0, if_neg (not_le.mpr hamt)]
    simp only [processRepayment, hfind, hact]
    norm_num
  · intro hpos
    have hactpos : 0 < min amount agent.usedCreditUsdc :=
      lt_min hamt hpos
    simp only [processRepayment, hfind, hmin]
    rw [if_neg (not_le.mpr hactpos)]
    have h1 : findAgent (updateAgentCredit w agentId
        (agent.usedCreditUsdc - min amount agent.usedCreditUsdc)) agentId =
        some { agent with usedCreditUsdc :=
          agent.usedCreditUsdc - min amount agent.usedCreditUsdc } :=
      findAgent_updateAgentCredit _ hfind
    refine ⟨rfl, ?_, ?_, ?_, ?_⟩
    · by_cases hc : (agent.status == "delinquent" &&
          (agent.usedCreditUsdc - min amount agent.usedCreditUsdc == 0))
          = true
      · rw [if_pos hc]; rfl
      · rw [if_neg hc]; rfl
    · by_cases hc : (agent.status == "delinquent" &&
          (agent.usedCreditUsdc - min amount agent.usedCreditUsdc == 0))
          = true
      · rw [if_pos hc, if_pos hc]
        exact findAgent_updateAgentStatus "active" h1
      · rw [if_neg hc, if_neg hc]
        exact h1
    · by_cases hc : (agent.status == "delinquent" &&
          (agent.usedCreditUsdc - min amount agent.usedCreditUsdc == 0))
          = true
      · rw [if_pos hc]; rfl
      · rw [if_neg hc]; rfl
    · by_cases hc : (agent.status == "delinquent" &&
          (agent.usedCreditUsdc - min amount agent.usedCreditUsdc == 0))
          = true
      · rw [if_pos hc]; rfl
      · rw [if_neg hc]; rfl

/-- C6 witness: a delinquent agent with usedCredit 100 repaying 250
repays exactly 100, reaches balance 0 and succeeds. -/
theorem c6_repayment_spec_witness :
    (0 : ℚ) < 250 ∧ (0 : ℚ) ≤ agentDelinquent.usedCreditUsdc ∧
    (0 : ℚ) < agentDelinquent.usedCreditUsdc ∧
    findAgent worldDelinquent "agent-1" = some agentDelinquent ∧
    (processRepayment worldDelinquent "agent-1" 250).1 =
      .ok { amountUsdc := min 250 agentDelinquent.usedCreditUsdc,
            newBalance := agentDelinquent.usedCreditUsdc -
              min 250 agentDelinquent.usedCreditUsdc,
            status := "confirmed" } := by
  have hfind : findAgent worldDelinquent "agent-1" = some agentDelinquent := by
    norm_num [findAgent, worldDelinquent, agentDelinquent, agentA]
  have h := (c6_repayment_spec worldDelinquent "agent-1" 250 agentDelinquent
    hfind (by norm_num)).2 (by norm_num [agentDelinquent, agentA])
  exact ⟨by norm_num, by norm_num [agentDelinquent, agentA],
    by norm_num [agentDelinquent, agentA], hfind, h.1⟩



-- ---------------------------------------------------------------------------
-- C2: the vault invariant
-- ---------------------------------------------------------------------------

/-- C2 counterexample: worldAfterPay is exactly the state a confirmed
Scenario-A payment is meant to leave (reserve netAmount 98.5, inject fee
1.5, agent owes the gross 100) and satisfies both invariants; yet the
full repayment of the gross 100 returns 100 of liquidity although only
98.5 was lent, driving totalLent to −1.5 < 0. -/
theorem c2_counterexample :
    VaultInv worldAfterPay.vault ∧ CreditInv worldAfterPay ∧
    (processRepayment worldAfterPay "agent-1" 100).1 =
      .ok { amountUsdc := 100, newBalance := 0, status := "confirmed" } ∧
    (processRepayment worldAfterPay "agent-1" 100).2.vault.totalLentUsdc =
      -(3 / 2) := by
  refine ⟨?_, ?_, ?_, ?_⟩
  · constructor <;> norm_num [worldAfterPay, vaultAfterPay]
  · intro a ha
    simp only [worldAfterPay, List.mem_singleton] at ha
    subst ha
    constructor <;> norm_num [agentAfterPay, agentA]
  · norm_num [processRepayment, worldAfterPay, agentAfterPay, agentA,
      vaultAfterPay, findAgent, ratMin, updateAgentCredit,
      updateAgentStatus, returnLiquidity, returnLent]
  · norm_num [processRepayment, worldAfterPay, agentAfterPay, agentA,
      vaultAfterPay, findAgent, ratMin, updateAgentCredit,
      updateAgentStatus, returnLiquidity, returnLent]

/-- C2 amended: 0 ≤ totalLent ≤ totalDeposits is preserved by a guarded
reservation of a nonnegative amount, by fee injection, by a deposit of a
nonnegative amount and by a successful withdrawal; a liquidity return
(the repayment path) preserves it only when the returned amount is at
most totalLent — returning more than is currently lent (a full gross
repayment after a payment that reserved only the net amount) drives
totalLent strictly below zero. -/
theorem c2_vault_invariant_amended (v : Vault) :
    (∀ a v2, 0 ≤ a → VaultInv v → reserveLiquidity v a = .ok v2 →
      VaultInv v2) ∧
    (∀ f, VaultInv v → VaultInv (processFeeIntoVault v f)) ∧
    (∀ a, 0 ≤ a → VaultInv v → VaultInv (processDeposit v a).1) ∧
    (∀ ps s r, VaultInv v → processWithdrawal v ps s = .ok r →
      VaultInv r.1) ∧
    (∀ a, 0 ≤ a → a ≤ v.totalLentUsdc → VaultInv v →
      VaultInv (returnLiquidity v a)) ∧
    (∀ a, v.totalLentUsdc < a →
      (returnLiquidity v a).totalLentUsdc < 0) := by
  refine ⟨?_, ?_, ?_, ?_, ?_, ?_⟩
  · intro a v2 ha hinv hok
    simp only [reserveLiquidity, availableLiquidity] at hok
    split at hok
    · exact absurd hok (by simp)
    · rename_i hle
      rw [not_lt] at hle
      injection hok with hok
      subst hok
      simp only [VaultInv, updateLent] at hinv ⊢
      exact ⟨by linarith [hinv.1], by linarith [hinv.2]⟩
  · intro fee hinv
    rw [processFeeIntoVault]
    split
    · exact hinv
    · rename_i hpos
      rw [not_le] at hpos
      simp only [VaultInv, addFees] at hinv ⊢
      exact ⟨hinv.1, by linarith [hinv.2]⟩
  · intro a ha hinv
    simp only [VaultInv, processDeposit, updateDeposit] at hinv ⊢
    exact ⟨hinv.1, by linarith [hinv.2]⟩
  · intro ps s r hinv hok
    simp only [processWithdrawal, availableLiquidity] at hok
    split at hok
    · exact absurd hok (by simp)
    · rename_i hle
      rw [not_lt] at hle
      split at hok
      · exact absurd hok (by simp)
      · injection hok with hok
        subst hok
        simp only [VaultInv, updateWithdraw] at hinv ⊢
        exact ⟨hinv.1, by linarith [hinv.2]⟩
  · intro a ha hle hinv
    simp only [VaultInv, returnLiquidity, returnLent] at hinv ⊢
    exact ⟨by linarith, by linarith [hinv.2]⟩
  · intro a hlt
    simp only [returnLiquidity, returnLent]
    linarith

/-- C2 amended witness at the post-payment vault: returning the gross 100
when only 98.5 is lent leaves totalLent negative. -/
theorem c2_vault_invariant_amended_witness :
    vaultAfterPay.totalLentUsdc < 100 ∧
    (returnLiquidity vaultAfterPay 100).totalLentUsdc < 0 :=
  ⟨by norm_num [vaultAfterPay],
   (c2_vault_invariant_amended vaultAfterPay).2.2.2.2.2 100
     (by norm_num [vaultAfterPay])⟩


-- ---------------------------------------------------------------------------
-- C9: spend naming an unknown merchant
-- ---------------------------------------------------------------------------

/-- C9 counterexample: reqA names merchantId m-1 and world9 has no
merchants, yet processPayment does not throw a NotFoundError: it computes
the fee from the substitute default rate (100 × 150 / 10000 = 1.5),
records a transaction, and returns an ok result with status rejected. -/
theorem c9_counterexample :
    findMerchant world9 "m-1" = none ∧
    (3 : ℚ) / 2 = reqA.amountUsdc * MERCHANT_FEE_BPS / 10000 ∧
    (processPayment world9 reqA false .signFails "tx-9").1 =
      .ok { transactionId := "tx-9", status := "rejected",
            permissionChecks :=
              { creditCheck := true, sanctionsCheck := true,
                merchantCheck := false, kyaCheck := true,
                riskCheck := true, allPassed := false,
                failureReasons := [.merchantNotFound] },
            feeUsdc := 3 / 2, netAmountUsdc := 197 / 2,
            mpcSignatureId := none, txHash := none,
            awaitingAgentSignature := none } ∧
    (processPayment world9 reqA false .signFails "tx-9").2.agents =
      world9.agents ∧
    (processPayment world9 reqA false .signFails "tx-9").2.vault =
      world9.vault ∧
    ((processPayment world9 reqA false .signFails "tx-9").2.txns.map
      Txn.status) = ["rejected"] := by
  refine ⟨by norm_num [findMerchant, world9, worldA], ?_, ?_, ?_, ?_, ?_⟩ <;>
    norm_num [processPayment, world9, worldA, reqA, agentA, vaultA,
      txGetByIdemKey, findAgent, findMerchant, feeBpsOf,
      MERCHANT_FEE_BPS, runPermissionChecks, txCreate]

/-- C9 amended: a spend naming a merchantId with no matching merchant is
not failed with a thrown NotFoundError; the fee is computed from the
default rate, the permission verdict fails its merchant check, the
transaction is recorded with status rejected, and the result is returned
with status rejected while credit and vault state stay untouched. -/
theorem c9_unknown_merchant_rejected (w : World) (req : PaymentRequest)
    (sanc : Bool) (ext : ExtOutcome) (txId : String) (agent : Agent)
    (mid : String)
    (hidem : txGetByIdemKey w req.idempotencyKey = none)
    (hagent : findAgent w req.agentId = some agent)
    (hmid : req.merchantId = some mid)
    (hm : findMerchant w mid = none) :
    ∃ t : Txn,
      processPayment w req sanc ext txId =
        (.ok { transactionId := txId, status := "rejected",
               permissionChecks := t.permissionChecks,
               feeUsdc := req.amountUsdc * MERCHANT_FEE_BPS / 10000,
               netAmountUsdc :=
                 req.amountUsdc -
                   req.amountUsdc * MERCHANT_FEE_BPS / 10000,
               mpcSignatureId := none, txHash := none,
               awaitingAgentSignature := none }, txCreate w t) ∧
      t.status = "rejected" ∧
      t.feeUsdc = req.amountUsdc * MERCHANT_FEE_BPS / 10000 ∧
      t.permissionChecks.merchantCheck = false ∧
      t.permissionChecks.allPassed = false ∧
      (txCreate w t).agents = w.agents ∧
      (txCreate w t).vault = w.vault := by
  simp only [processPayment, hidem, hagent, feeBpsOf, hmid, hm,
    runPermissionChecks, Bool.and_false, Bool.false_and]
  norm_num
  exact ⟨_, ⟨rfl, rfl⟩, rfl, rfl, rfl, rfl, rfl, rfl⟩



-- ---------------------------------------------------------------------------
-- C3: failure after reservation and debit rolls back exactly
-- ---------------------------------------------------------------------------

/-- C3: when the idempotency gate and agent load succeed, the verdict
passes, the liquidity reservation succeeds and the shard is supplied, but
signing fails, the chain call throws, or the broadcast reports
non-confirmation, then the error is propagated to the caller, the
transaction record (the head of the store) is left with status failed,
and the agent list and the vault are restored to exactly their
pre-request values. -/
theorem c3_rollback_restores (w : World) (req : PaymentRequest)
    (sanc : Bool) (ext : ExtOutcome) (txId : String) (agent : Agent)
    (sh : String)
    (hidem : txGetByIdemKey w req.idempotencyKey = none)
    (hagent : findAgent w req.agentId = some agent)
    (huniq : UniqueAgentIds w)
    (hpass : (runPermissionChecks w agent sanc req.amountUsdc
      req.merchantId req.recipientAgentId).allPassed = true)
    (hliq : ¬ (availableLiquidity w.vault <
      req.amountUsdc - req.amountUsdc * feeBpsOf w req / 10000))
    (hsh : req.agentPartialSignature = some sh)
    (hext : ext = .signFails ∨ ext = .broadcastFails ∨
      ∃ h, ext = .broadcastResult h false) :
    (processPayment w req sanc ext txId).1 =
      .error .signBroadcastError ∧
    (processPayment w req sanc ext txId).2.agents = w.agents ∧
    (processPayment w req sanc ext txId).2.vault = w.vault ∧
    (∃ t2 rest, (processPayment w req sanc ext txId).2.txns =
      t2 :: rest ∧ t2.status = "failed") := by
  have hrestore := agents_update_restore w.agents req.agentId
    (agent.usedCreditUsdc + req.amountUsdc) agent.usedCreditUsdc
    (fun a ha hid => by rw [mem_id_eq_found huniq hagent ha hid])
  have hcancel : w.vault.totalLentUsdc +
      (req.amountUsdc - req.amountUsdc * feeBpsOf w req / 10000) -
      (req.amountUsdc - req.amountUsdc * feeBpsOf w req / 10000) =
      w.vault.totalLentUsdc := add_sub_cancel_right _ _
  rcases hext with hext | hext | ⟨h, hext⟩ <;> subst hext <;>
    simp only [processPayment, hidem, hagent, hpass, hsh,
      reserveLiquidity, hliq, paymentRollback, txCreate, txUpdateStatus,
      txUpdateHash, updateAgentCredit, updateLent, returnLiquidity,
      returnLent, List.map_cons, beq_self_eq_true, if_true,
      Bool.true_eq_false, if_false, ite_true, ite_false,
      Bool.false_eq_true, eq_self_iff_true] <;>
    exact ⟨trivial, hrestore, by rw [hcancel], ⟨_, _, rfl, rfl⟩⟩

/-- C3 witness: Scenario A with a non-confirming broadcast rolls the
agent list and the vault back to worldA and fails the transaction. -/
theorem c3_rollback_restores_witness :
    (processPayment worldA reqA false (.broadcastResult "0xabc" false)
      "tx-1").1 = .error .signBroadcastError ∧
    (processPayment worldA reqA false (.broadcastResult "0xabc" false)
      "tx-1").2.agents = worldA.agents ∧
    (processPayment worldA reqA false (.broadcastResult "0xabc" false)
      "tx-1").2.vault = worldA.vault ∧
    (∃ t2 rest, (processPayment worldA reqA false
      (.broadcastResult "0xabc" false) "tx-1").2.txns =
      t2 :: rest ∧ t2.status = "failed") :=
  c3_rollback_restores worldA reqA false (.broadcastResult "0xabc" false)
    "tx-1" agentA "shard"
    (by norm_num [txGetByIdemKey, worldA])
    (by norm_num [findAgent, worldA, reqA, agentA])
    (by simp [UniqueAgentIds, worldA])
    (by norm_num [runPermissionChecks, worldA, reqA, agentA, merchantA,
      findMerchant, findAgent])
    (by norm_num [availableLiquidity, worldA, vaultA, feeBpsOf,
      findMerchant, merchantA, reqA, MERCHANT_FEE_BPS])
    (by norm_num [reqA])
    (.inr (.inr ⟨"0xabc", rfl⟩))


-- ---------------------------------------------------------------------------
-- C4: idempotency-key replay
-- ---------------------------------------------------------------------------

/-- The idempotency gate (step 1): a lookup hit returns the stored
transaction's snapshot — with the response-only fields mpcSignatureId and
awaitingAgentSignature absent — and leaves the world untouched. -/
theorem processPayment_replay (w : World) (req : PaymentRequest)
    (sanc : Bool) (ext : ExtOutcome) (txId : String) (t : Txn)
    (h : txGetByIdemKey w req.idempotencyKey = some t) :
    processPayment w req sanc ext txId =
      (.ok { transactionId := t.id, status := t.status,
             permissionChecks := t.permissionChecks, feeUsdc := t.feeUsdc,
             netAmountUsdc := t.netAmountUsdc, mpcSignatureId := none,
             txHash := t.txHash, awaitingAgentSignature := none }, w) := by
  simp only [processPayment, h]

/-- Every branch of processPayment that gets past the agent load leaves a
transaction carrying the request's idempotencyKey in the store. -/
theorem processPayment_stores_key (w : World) (req : PaymentRequest)
    (sanc : Bool) (ext : ExtOutcome) (txId : String) (agent : Agent)
    (hagent : findAgent w req.agentId = some agent) :
    ∃ t, txGetByIdemKey (processPayment w req sanc ext txId).2
      req.idempotencyKey = some t := by
  rcases hidem : txGetByIdemKey w req.idempotencyKey with _ | t
  · simp only [processPayment, hidem, hagent]
    repeat' split
    all_goals simp only [txGetByIdemKey, txCreate, txUpdateStatus,
      txUpdateHash, updateAgentCredit, paymentRollback, List.find?,
      List.map_cons, beq_self_eq_true, if_true, ite_true,
      eq_self_iff_true]
    all_goals exact ⟨_, rfl⟩
  · rw [processPayment_replay w req sanc ext txId t hidem]
    exact ⟨t, hidem⟩

/-- C4 counterexample: the same Scenario-A request without a shard,
submitted twice with the same idempotencyKey.  The first response carries
awaitingAgentSignature = true; the replay returns the stored snapshot,
which omits that field — the two responses are not byte-identical. -/
theorem c4_counterexample :
    (processPayment worldA reqANoShard false .signFails "tx-1").1 =
      .ok { transactionId := "tx-1", status := "signing",
            permissionChecks := pcA, feeUsdc := 3 / 2,
            netAmountUsdc := 197 / 2, mpcSignatureId := none,
            txHash := none, awaitingAgentSignature := some true } ∧
    (processPayment (processPayment worldA reqANoShard false .signFails
      "tx-1").2 reqANoShard false .signFails "tx-2").1 =
      .ok { transactionId := "tx-1", status := "signing",
            permissionChecks := pcA, feeUsdc := 3 / 2,
            netAmountUsdc := 197 / 2, mpcSignatureId := none,
            txHash := none, awaitingAgentSignature := none } ∧
    ({ transactionId := "tx-1", status := "signing",
       permissionChecks := pcA, feeUsdc := 3 / 2,
       netAmountUsdc := 197 / 2, mpcSignatureId := none, txHash := none,
       awaitingAgentSignature := some true } : PaymentResult) ≠
    { transactionId := "tx-1", status := "signing",
      permissionChecks := pcA, feeUsdc := 3 / 2,
      netAmountUsdc := 197 / 2, mpcSignatureId := none, txHash := none,
      awaitingAgentSignature := none } := by
  refine ⟨?_, ?_, ?_⟩
  · norm_num [processPayment, worldA, reqA, reqANoShard, agentA, merchantA,
      vaultA, pcA, txGetByIdemKey, findAgent, findMerchant, feeBpsOf,
      MERCHANT_FEE_BPS, runPermissionChecks, txCreate, reserveLiquidity,
      availableLiquidity, updateLent, updateAgentCredit, txUpdateStatus]
  · norm_num [processPayment, worldA, reqA, reqANoShard, agentA, merchantA,
      vaultA, pcA, txGetByIdemKey, findAgent, findMerchant, feeBpsOf,
      MERCHANT_FEE_BPS, runPermissionChecks, txCreate, reserveLiquidity,
      availableLiquidity, updateLent, updateAgentCredit, txUpdateStatus,
      List.find?]
  · intro hcontra
    have h2 := congrArg PaymentResult.awaitingAgentSignature hcontra
    simp at h2

/-- C4 amended: resubmitting the same idempotencyKey performs no further
credit or vault mutation — the second call returns the stored
transaction's snapshot and leaves the world exactly as the first call
left it.  The snapshot repeats the stored transactionId, status, fee,
netAmount, permission checks and txHash, but omits the response-only
fields (awaitingAgentSignature, mpcSignatureId), so the two responses
need not be byte-identical. -/
theorem c4_idempotent_replay (w : World) (req : PaymentRequest)
    (sanc sanc2 : Bool) (ext ext2 : ExtOutcome) (txId txId2 : String)
    (agent : Agent)
    (hagent : findAgent w req.agentId = some agent) :
    ∃ t : Txn,
      txGetByIdemKey (processPayment w req sanc ext txId).2
        req.idempotencyKey = some t ∧
      processPayment (processPayment w req sanc ext txId).2 req sanc2 ext2
        txId2 =
        (.ok { transactionId := t.id, status := t.status,
               permissionChecks := t.permissionChecks,
               feeUsdc := t.feeUsdc, netAmountUsdc := t.netAmountUsdc,
               mpcSignatureId := none, txHash := t.txHash,
               awaitingAgentSignature := none },
         (processPayment w req sanc ext txId).2) := by
  obtain ⟨t, ht⟩ := processPayment_stores_key w req sanc ext txId agent
    hagent
  exact ⟨t, ht, processPayment_replay _ req sanc2 ext2 txId2 t ht⟩

/-- C4 amended witness at the Scenario-A awaiting-signature run. -/
theorem c4_idempotent_replay_witness :
    ∃ t : Txn,
      txGetByIdemKey (processPayment worldA reqANoShard false .signFails
        "tx-1").2 reqANoShard.idempotencyKey = some t ∧
      processPayment (processPayment worldA reqANoShard false .signFails
        "tx-1").2 reqANoShard false .signFails "tx-2" =
        (.ok { transactionId := t.id, status := t.status,
               permissionChecks := t.permissionChecks,
               feeUsdc := t.feeUsdc, netAmountUsdc := t.netAmountUsdc,
               mpcSignatureId := none, txHash := t.txHash,
               awaitingAgentSignature := none },
         (processPayment worldA reqANoShard false .signFails "tx-1").2) :=
  c4_idempotent_replay worldA reqANoShard false false .signFails
    .signFails "tx-1" "tx-2" agentA
    (by norm_num [findAgent, worldA, reqA, reqANoShard, agentA])


-- ---------------------------------------------------------------------------
-- C5: Scenario A — the undefined signResult reference on the success path
-- ---------------------------------------------------------------------------

/-- C5 (code bug at payment.ts line 248): Scenario A — creditLimit 1000,
usedCredit 0, amount 100 to a merchant with feeBps 150, all checks
passing, shard supplied, broadcast confirming.  The fee and netAmount are
computed as the spec says (1.5 and 98.5, visible in the stored
transaction row), but the success path then reads the undefined variable
signResult while building the response: the ReferenceError is caught by
the failure handler, so the run propagates an error, the transaction ends
failed, the agent's credit is rolled back to 0 instead of 100, and the
vault keeps the injected fee while the reserved liquidity is returned. -/
theorem c5_scenarioA_signresult_bug :
    (processPayment worldA reqA false (.broadcastResult "0xabc" true)
      "tx-1").1 = .error .referenceErrorSignResult ∧
    ((processPayment worldA reqA false (.broadcastResult "0xabc" true)
      "tx-1").2.txns.map Txn.status) = ["failed"] ∧
    ((processPayment worldA reqA false (.broadcastResult "0xabc" true)
      "tx-1").2.txns.map Txn.feeUsdc) = [3 / 2] ∧
    ((processPayment worldA reqA false (.broadcastResult "0xabc" true)
      "tx-1").2.txns.map Txn.netAmountUsdc) = [197 / 2] ∧
    (processPayment worldA reqA false (.broadcastResult "0xabc" true)
      "tx-1").2.vault =
      { totalDepositsUsdc := 2003 / 2, totalLentUsdc := 0,
        totalFeesEarnedUsdc := 3 / 2, totalShares := 1000 } ∧
    findAgent (processPayment worldA reqA false
      (.broadcastResult "0xabc" true) "tx-1").2 "agent-1" =
      some agentA := by
  refine ⟨?_, ?_, ?_, ?_, ?_, ?_⟩ <;>
    norm_num [processPayment, worldA, reqA, agentA, merchantA, vaultA,
      txGetByIdemKey, findAgent, findMerchant, feeBpsOf,
      MERCHANT_FEE_BPS, runPermissionChecks, txCreate, reserveLiquidity,
      availableLiquidity, updateLent, updateAgentCredit, txUpdateStatus,
      txUpdateHash, paymentRollback, returnLiquidity, returnLent,
      processFeeIntoVault, addFees, List.find?]


-- ---------------------------------------------------------------------------
-- C1: the per-agent credit invariant
-- ---------------------------------------------------------------------------

theorem agentInvList_update (l : List Agent) (agentId : String) (v : ℚ)
    (hinv : ∀ a ∈ l, AgentInv a)
    (hv : ∀ a ∈ l, a.id = agentId → 0 ≤ v ∧ v ≤ a.creditLimitUsdc) :
    ∀ a ∈ (l.map fun a => if a.id == agentId then
      { a with usedCreditUsdc := v } else a), AgentInv a := by
  intro a ha
  simp only [List.mem_map] at ha
  obtain ⟨b, hb, rfl⟩ := ha
  by_cases hid : (b.id == agentId) = true
  · rw [if_pos hid]
    exact hv b hb (by simpa using hid)
  · rw [if_neg hid]
    exact hinv b hb

theorem agentInvList_status (l : List Agent) (agentId st : String)
    (hinv : ∀ a ∈ l, AgentInv a) :
    ∀ a ∈ (l.map fun a => if a.id == agentId then
      { a with status := st } else a), AgentInv a := by
  intro a ha
  simp only [List.mem_map] at ha
  obtain ⟨b, hb, rfl⟩ := ha
  by_cases hid : (b.id == agentId) = true
  · rw [if_pos hid]
    exact hinv b hb
  · rw [if_neg hid]
    exact hinv b hb

theorem agentInvList_limit (l : List Agent) (agentId : String) (v : ℚ)
    (hinv : ∀ a ∈ l, AgentInv a)
    (hv : ∀ a ∈ l, a.id = agentId → a.usedCreditUsdc ≤ v) :
    ∀ a ∈ (l.map fun a => if a.id == agentId then
      { a with creditLimitUsdc := v } else a), AgentInv a := by
  intro a ha
  simp only [List.mem_map] at ha
  obtain ⟨b, hb, rfl⟩ := ha
  by_cases hid : (b.id == agentId) = true
  · rw [if_pos hid]
    exact ⟨(hinv b hb).1, hv b hb (by simpa using hid)⟩
  · rw [if_neg hid]
    exact hinv b hb

/-- C1: with unique agent ids (agents.id is the table's primary key) and
positive request amounts (PaymentRequestSchema validates
amountUsdc > 0 before processPayment is reached),
0 ≤ usedCredit ≤ creditLimit is preserved at every observable point:
every processPayment run preserves it (the debit happens only under the verdict's credit
check, and every rollback restores the snapshot), every repayment with a
positive amount preserves it (it decrements by at most usedCredit), every
limit adjustment preserves it, and a limit adjustment below current usage
is rejected with the world unchanged. -/
theorem c1_credit_invariant (w : World)
    (hinv : CreditInv w) (huniq : UniqueAgentIds w) :
    (∀ req sanc ext txId, 0 < req.amountUsdc →
      CreditInv (processPayment w req sanc ext txId).2) ∧
    (∀ agentId amount, 0 < amount →
      CreditInv (processRepayment w agentId amount).2) ∧
    (∀ agentId newLimit,
      CreditInv (adjustCreditLimit w agentId newLimit).2) ∧
    (∀ agentId newLimit agent, findAgent w agentId = some agent →
      newLimit < agent.usedCreditUsdc →
      adjustCreditLimit w agentId newLimit = (.error .belowUsage, w)) := by
  refine ⟨?_, ?_, ?_, ?_⟩
  · intro req sanc ext txId hamt
    rcases hidem : txGetByIdemKey w req.idempotencyKey with _ | t
    · rcases hagent : findAgent w req.agentId with _ | agent
      · simp only [processPayment, hidem, hagent]
        exact hinv
      · have hmem := findAgent_mem hagent
        simp only [processPayment, hidem, hagent]
        split
        · exact hinv
        · rename_i hnp
          have hall : (runPermissionChecks w agent sanc req.amountUsdc
              req.merchantId req.recipientAgentId).allPassed = true := by
            simpa using hnp
          have hle : req.amountUsdc ≤
              agent.creditLimitUsdc - agent.usedCreditUsdc := by
            simp only [runPermissionChecks] at hall
            simp only [Bool.and_eq_true, decide_eq_true_eq] at hall
            exact hall.1.1.1.1
          have hdebit : ∀ a ∈ w.agents, a.id = req.agentId →
              0 ≤ agent.usedCreditUsdc + req.amountUsdc ∧
              agent.usedCreditUsdc + req.amountUsdc ≤
                a.creditLimitUsdc := by
            intro a ha hid
            rw [mem_id_eq_found huniq hagent ha hid]
            have h0 : 0 ≤ agent.usedCreditUsdc := (hinv agent hmem.1).1
            exact ⟨by linarith, by linarith⟩
          repeat' split
          all_goals simp only [paymentRollback, txCreate, txUpdateStatus,
            txUpdateHash, updateAgentCredit]
          all_goals first
            | exact hinv
            | exact agentInvList_update _ _ _ hinv hdebit
            | exact creditInv_of_agents_eq
                (agents_update_restore w.agents req.agentId
                  (agent.usedCreditUsdc + req.amountUsdc)
                  agent.usedCreditUsdc
                  (fun a ha hid => by
                    rw [mem_id_eq_found huniq hagent ha hid]))
                hinv
    · rw [processPayment_replay w req sanc ext txId t hidem]
      exact hinv
  · intro agentId amount hamt
    rcases hagent : findAgent w agentId with _ | agent
    · simp only [processRepayment, hagent]
      exact hinv
    · have hmem := findAgent_mem hagent
      simp only [processRepayment, hagent]
      split
      · exact hinv
      · rename_i hact
        have hrepay : ∀ a ∈ w.agents, a.id = agentId →
            0 ≤ agent.usedCreditUsdc -
              ratMin amount agent.usedCreditUsdc ∧
            agent.usedCreditUsdc - ratMin amount agent.usedCreditUsdc ≤
              a.creditLimitUsdc := by
          intro a ha hid
          rw [mem_id_eq_found huniq hagent ha hid]
          have h2 := hinv agent hmem.1
          have hle : ratMin amount agent.usedCreditUsdc ≤
              agent.usedCreditUsdc := by
            rw [ratMin_eq_min]
            exact min_le_right _ _
          have hpos : 0 < ratMin amount agent.usedCreditUsdc := by
            simpa using hact
          exact ⟨by linarith, by linarith [h2.2]⟩
        split
        · simp only [updateAgentStatus, updateAgentCredit]
          exact agentInvList_status _ _ _
            (agentInvList_update _ _ _ hinv hrepay)
        · simp only [updateAgentCredit]
          exact agentInvList_update _ _ _ hinv hrepay
  · intro agentId newLimit
    rcases hagent : findAgent w agentId with _ | agent
    · simp only [adjustCreditLimit, hagent]
      exact hinv
    · simp only [adjustCreditLimit, hagent]
      split
      · exact hinv
      · split
        · exact hinv
        · rename_i hge hmax
          rw [not_lt] at hge
          simp only [updateAgentLimit]
          refine agentInvList_limit _ _ _ hinv ?_
          intro a ha hid
          rw [mem_id_eq_found huniq hagent ha hid]
          exact hge
  · intro agentId newLimit agent hagent hlt
    simp only [adjustCreditLimit, hagent]
    rw [if_pos hlt]

/-- C1 witness: the invariant is preserved from worldA by a Scenario-A
payment attempt, by a repayment of 50, and by limit adjustments; a limit
of −5 below the usage 100 in worldAfterPay is rejected unchanged. -/
theorem c1_credit_invariant_witness :
    CreditInv (processPayment worldA reqA false .signFails "tx-1").2 ∧
    CreditInv (processRepayment worldAfterPay "agent-1" 50).2 ∧
    CreditInv (adjustCreditLimit worldA "agent-1" 500).2 ∧
    adjustCreditLimit worldAfterPay "agent-1" (-5) =
      (.error .belowUsage, worldAfterPay) := by
  have hinvA : CreditInv worldA := by
    intro a ha
    simp only [worldA, List.mem_singleton] at ha
    subst ha
    exact ⟨by norm_num [agentA], by norm_num [agentA]⟩
  have huniqA : UniqueAgentIds worldA := by
    simp [UniqueAgentIds, worldA]
  have hinvP : CreditInv worldAfterPay := by
    intro a ha
    simp only [worldAfterPay, List.mem_singleton] at ha
    subst ha
    exact ⟨by norm_num [agentAfterPay, agentA],
      by norm_num [agentAfterPay, agentA]⟩
  have huniqP : UniqueAgentIds worldAfterPay := by
    simp [UniqueAgentIds, worldAfterPay]
  refine ⟨(c1_credit_invariant worldA hinvA huniqA).1 reqA false .signFails
    "tx-1" (by norm_num [reqA]),
    (c1_credit_invariant worldAfterPay hinvP huniqP).2.1 "agent-1" 50
      (by norm_num),
    (c1_credit_invariant worldA hinvA huniqA).2.2.1 "agent-1" 500,
    (c1_credit_invariant worldAfterPay hinvP huniqP).2.2.2 "agent-1" (-5)
      agentAfterPay (by norm_num [findAgent, worldAfterPay, agentAfterPay,
        agentA]) (by norm_num [agentAfterPay, agentA])⟩


/-- C8 amended witness at decryptOk = true, shards 0 and 5. -/
theorem c8_sign_no_shard_validation_witness :
    signWithMPC true 0 5 ≠ SignOutcome.invalidShardError ∧
    signWithMPC false 0 5 = SignOutcome.decryptionError ∧
    signWithMPC true 0 5 =
      (if (0 + 5) % secpN = 0 then SignOutcome.signingError
       else SignOutcome.ok ((0 + 5) % secpN)) :=
  c8_sign_no_shard_validation true 0 5

/-- C9 amended witness: reqA against world9, whose merchant table is
empty. -/
theorem c9_unknown_merchant_rejected_witness :
    ∃ t : Txn,
      processPayment world9 reqA false .signFails "tx-9" =
        (.ok { transactionId := "tx-9", status := "rejected",
               permissionChecks := t.permissionChecks,
               feeUsdc := reqA.amountUsdc * MERCHANT_FEE_BPS / 10000,
               netAmountUsdc :=
                 reqA.amountUsdc -
                   reqA.amountUsdc * MERCHANT_FEE_BPS / 10000,
               mpcSignatureId := none, txHash := none,
               awaitingAgentSignature := none }, txCreate world9 t) ∧
      t.status = "rejected" ∧
      t.feeUsdc = reqA.amountUsdc * MERCHANT_FEE_BPS / 10000 ∧
      t.permissionChecks.merchantCheck = false ∧
      t.permissionChecks.allPassed = false ∧
      (txCreate world9 t).agents = world9.agents ∧
      (txCreate world9 t).vault = world9.vault :=
  c9_unknown_merchant_rejected world9 reqA false .signFails "tx-9" agentA
    "m-1" (by norm_num [txGetByIdemKey, world9, worldA])
    (by norm_num [findAgent, world9, worldA, reqA, agentA])
    (by norm_num [reqA])
    (by norm_num [findMerchant, world9, worldA])

end SohoCredit
